import Mathlib

/-!
Shallow embedding of the rover / granular-terrain co-simulation driver
(`src/rovertest.cpp`): vectors and quaternions, the gravity setup, the
frame-output cadence, the single-precision loop counter, checkpoint I/O,
the mesh-frame basis computation, and the coupling-loop step structure,
together with theorems settling the specification's claims.
-/

namespace Rovertest

/-- Vector with rational components, embedding `ChVector<>`; the source's
floating-point component values are modelled exactly as rationals. -/
structure Vec3 where
  x : ℚ
  y : ℚ
  z : ℚ
  deriving DecidableEq

/-- Quaternion with scalar part `e0`, embedding `ChQuaternion<>`. -/
structure Quat where
  e0 : ℚ
  e1 : ℚ
  e2 : ℚ
  e3 : ℚ
  deriving DecidableEq

def Vec3.zero : Vec3 := ⟨0, 0, 0⟩

def Vec3.add (a b : Vec3) : Vec3 := ⟨a.x + b.x, a.y + b.y, a.z + b.z⟩

def Vec3.sub (a b : Vec3) : Vec3 := ⟨a.x - b.x, a.y - b.y, a.z - b.z⟩

def Vec3.cross (a b : Vec3) : Vec3 :=
  ⟨a.y * b.z - a.z * b.y, a.z * b.x - a.x * b.z, a.x * b.y - a.y * b.x⟩

def Vec3.dot (a b : Vec3) : ℚ := a.x * b.x + a.y * b.y + a.z * b.z

/-- Squared Euclidean length; the source's `ChVector::Length()` is the square
root of this quantity. -/
def Vec3.lenSq (a : Vec3) : ℚ := a.dot a

def Vec3.smul (c : ℚ) (a : Vec3) : Vec3 := ⟨c * a.x, c * a.y, c * a.z⟩

/-- Gravity magnitude constant `mars_grav_mag = 370` (src/rovertest.cpp:40). -/
def mars_grav_mag : ℝ := 370

/-- Settling-phase duration `time_settling = 1.0` (src/rovertest.cpp:42). -/
def time_settling : ℚ := 1

/-- Testing-phase duration `time_running = 10.0` (src/rovertest.cpp:43). -/
def time_running : ℚ := 10

/-- Output frame rate `out_fps = 50` (src/rovertest.cpp:82). -/
def out_fps : ℕ := 50

/-- Gravity angle in radians from the CLI degree argument:
`grav_angle = 2.0 * CH_C_PI * input_grav_angle_deg / 360.0`
(src/rovertest.cpp:244). -/
noncomputable def grav_angle (deg : ℝ) : ℝ := 2 * Real.pi * deg / 360

/-- Gravity component `Gx = -mars_grav_mag * std::sin(grav_angle)`
(src/rovertest.cpp:246). -/
noncomputable def gravGx (deg : ℝ) : ℝ := -mars_grav_mag * Real.sin (grav_angle deg)

/-- Gravity component `Gy = 0` (src/rovertest.cpp:247). -/
def gravGy : ℝ := 0

/-- Gravity component `Gz = -mars_grav_mag * std::cos(grav_angle)`
(src/rovertest.cpp:248). -/
noncomputable def gravGz (deg : ℝ) : ℝ := -mars_grav_mag * Real.cos (grav_angle deg)

/-- Gravity vector handed to the granular solver by
`gpu_sys.SetGravitationalAcceleration(ChVector<>(Gx, Gy, Gz))`
(src/rovertest.cpp:299). -/
noncomputable def gpuGravity (deg : ℝ) : ℝ × ℝ × ℝ := (gravGx deg, gravGy, gravGz deg)

/-- Gravity vector handed to the rigid-body solver by
`rover_sys.Set_G_acc(ChVector<>(Gx, Gy, Gz))` (src/rovertest.cpp:315). -/
noncomputable def roverGravity (deg : ℝ) : ℝ × ℝ × ℝ := (gravGx deg, gravGy, gravGz deg)

/-- The specification's gravity formula `(-g·sin θ, 0, -g·cos θ)` with
`g = 370` and `θ = 2π·deg/360`, written from the spec's words for comparison
with the definitions taken from the source. -/
noncomputable def specGravity (deg : ℝ) : ℝ × ℝ × ℝ :=
  (-(370 : ℝ) * Real.sin (2 * Real.pi * deg / 360), 0,
    -(370 : ℝ) * Real.cos (2 * Real.pi * deg / 360))

/-- Frame-output step interval
`unsigned int out_steps = 1 / (out_fps * iteration_step)`
(src/rovertest.cpp:387); the C++ double-to-unsigned conversion truncates
toward zero, modelled by the floor on a positive value. -/
def outSteps (h : ℚ) : ℕ := (⌊1 / ((out_fps : ℚ) * h)⌋).toNat

/-- Per-step output-cadence test `curr_step % out_steps == 0`
(src/rovertest.cpp:438), returning `none` when `out_steps = 0`, where the
C++ remainder is undefined behaviour. -/
def frameCheck (h : ℚ) (k : ℕ) : Option Bool :=
  if outSteps h = 0 then none else some (k % outSteps h == 0)

/-- The specification's cadence quantity `round(1/(out_fps·h))`, written from
the spec's words for comparison with `outSteps`. -/
def roundCadence (h : ℚ) : ℤ := round (1 / ((out_fps : ℚ) * h))

/-- Squared norm of a quaternion. -/
def Quat.normSq (q : Quat) : ℚ := q.e0 ^ 2 + q.e1 ^ 2 + q.e2 ^ 2 + q.e3 ^ 2

/-- Modelled from the spec: `rot.GetXaxis()` used by `writeMeshFrames`
(src/rovertest.cpp:196) lives in the external rigid-body library, so it is
modelled from the spec's words ("the three rotated axis vectors"): the image
of the x unit vector under rotation by the orientation quaternion, i.e. the
vector part of `q · (0,1,0,0) · q̄`. -/
def Quat.xAxis (q : Quat) : Vec3 :=
  ⟨q.e0 ^ 2 + q.e1 ^ 2 - q.e2 ^ 2 - q.e3 ^ 2,
    2 * (q.e1 * q.e2 + q.e0 * q.e3),
    2 * (q.e1 * q.e3 - q.e0 * q.e2)⟩

/-- Modelled from the spec: `rot.GetYaxis()` (src/rovertest.cpp:197), the
image of the y unit vector under rotation by the orientation quaternion. -/
def Quat.yAxis (q : Quat) : Vec3 :=
  ⟨2 * (q.e1 * q.e2 - q.e0 * q.e3),
    q.e0 ^ 2 - q.e1 ^ 2 + q.e2 ^ 2 - q.e3 ^ 2,
    2 * (q.e2 * q.e3 + q.e0 * q.e1)⟩

/-- Modelled from the spec: `rot.GetZaxis()` (src/rovertest.cpp:198), the
image of the z unit vector under rotation by the orientation quaternion. -/
def Quat.zAxis (q : Quat) : Vec3 :=
  ⟨2 * (q.e1 * q.e3 + q.e0 * q.e2),
    2 * (q.e2 * q.e3 - q.e0 * q.e1),
    q.e0 ^ 2 - q.e1 ^ 2 - q.e2 ^ 2 + q.e3 ^ 2⟩

/-- Normalized basis vector `vx = vx / vx.Length()` written by
`writeMeshFrames` (src/rovertest.cpp:202).  `lenSq_xAxis` below shows the
length of the rotated axis is exactly `q.normSq`, so the division is exact
over ℚ. -/
def unitX (q : Quat) : Vec3 := Vec3.smul (1 / q.normSq) q.xAxis

/-- Normalized basis vector `vy = vy / vy.Length()` (src/rovertest.cpp:203). -/
def unitY (q : Quat) : Vec3 := Vec3.smul (1 / q.normSq) q.yAxis

/-- Normalized basis vector `vz = vz / vz.Length()` (src/rovertest.cpp:204). -/
def unitZ (q : Quat) : Vec3 := Vec3.smul (1 / q.normSq) q.zAxis

/-- Number of binary digits of `n`, by structural recursion on fuel. -/
def bitlen : ℕ → ℕ → ℕ
  | 0, _ => 0
  | fuel + 1, n => if n = 0 then 0 else bitlen fuel (n / 2) + 1

/-- Round a nonnegative fixed-point value (an integer number of `2^-64`
units) to `p` significant binary digits, ties to even: the rounding IEEE-754
performs on the significand of a positive result. -/
def roundSig (p v : ℕ) : ℕ :=
  let b := bitlen 128 v
  if b ≤ p then v
  else
    let s := b - p
    let q := v / 2 ^ s
    let r := v % 2 ^ s
    let half := 2 ^ (s - 1)
    let q' := if half < r ∨ (r = half ∧ q % 2 = 1) then q + 1 else q
    q' * 2 ^ s

/-- The value 1.0 in `2^-64` fixed-point units. -/
def fixOne : ℕ := 2 ^ 64

/-- The IEEE-754 double nearest 0.005 (the parsed `params.step_size` of the
settling scenario), in `2^-64` fixed-point units:
`0.005 ≈ 5764607523034235 · 2^-60`. -/
def fixStep005 : ℕ := 92233720368547760

/-- One execution of `t += iteration_step` on the single-precision loop
counter (src/rovertest.cpp:406): the float `t` is widened exactly, added to
the double step with a rounding to 53 significant digits, and the result is
stored back to float with a rounding to 24 significant digits. -/
def floatLoopAdd (c t : ℕ) : ℕ := roundSig 24 (roundSig 53 (t + c))

/-- Number of iterations executed by
`for (float t = 0; t < time_end; t += iteration_step)` (src/rovertest.cpp:406)
starting from counter value `t`, with step constant `c` and bound `endv`,
all in `2^-64` fixed-point units; `fuel` bounds the recursion. -/
def floatLoopCount : ℕ → ℕ → ℕ → ℕ → ℕ
  | 0, _, _, _ => 0
  | fuel + 1, c, endv, t =>
    if t < endv then floatLoopCount fuel c endv (floatLoopAdd c t) + 1 else 0

/-- Step count of the SETTLING coupling loop: `time_end = time_settling = 1.0`,
`iteration_step = 0.005`, single-precision accumulator starting at 0. -/
def settlingStepCount : ℕ := floatLoopCount 2500 fixStep005 fixOne 0

/-- Unit conversion `METERS_TO_CM = 100` (src/rovertest.cpp:45). -/
def METERS_TO_CM : ℚ := 100

/-- Wheel radius `wheel_rad = 0.13 * METERS_TO_CM` (src/rovertest.cpp:48). -/
def wheel_rad : ℚ := 13 / 100 * METERS_TO_CM

/-- Vertical wheel offset `wheel_offset_z = -0.164 * METERS_TO_CM`
(src/rovertest.cpp:66). -/
def wheel_offset_z : ℚ := -(164 / 1000) * METERS_TO_CM

/-- Wheel x-offset `front_wheel_offset_x` (src/rovertest.cpp:57). -/
def front_wheel_offset_x : ℚ := 7 / 10 * METERS_TO_CM

/-- Wheel y-offset `front_wheel_offset_y` (src/rovertest.cpp:58). -/
def front_wheel_offset_y : ℚ := 6 / 10 * METERS_TO_CM

/-- Wheel x-offset `middle_wheel_offset_x` (src/rovertest.cpp:60). -/
def middle_wheel_offset_x : ℚ := -(1 / 100) * METERS_TO_CM

/-- Wheel y-offset `middle_wheel_offset_y` (src/rovertest.cpp:61). -/
def middle_wheel_offset_y : ℚ := 55 / 100 * METERS_TO_CM

/-- Wheel x-offset `rear_wheel_offset_x` (src/rovertest.cpp:63). -/
def rear_wheel_offset_x : ℚ := -(51 / 100) * METERS_TO_CM

/-- Wheel y-offset `rear_wheel_offset_y` (src/rovertest.cpp:64). -/
def rear_wheel_offset_y : ℚ := 6 / 10 * METERS_TO_CM

/-- Height from the chassis reference to the wheel bottoms,
`std::abs(wheel_offset_z) + 2 * wheel_rad` (src/rovertest.cpp:319-320). -/
def height_offset_chassis_to_bottom : ℚ := |wheel_offset_z| + 2 * wheel_rad

/-- Identity of a coupled rigid body: one of the six wheels (in the order
the `addWheelBody` calls create them, src/rovertest.cpp:344-365) or the
chassis. -/
inductive BodyId where
  | wheel (i : Fin 6)
  | chassis
  deriving DecidableEq

/-- Kinematic state of a body: position, orientation, linear velocity and
angular velocity (the quantities read by `GetPos`, `GetRot`, `GetPos_dt`,
`GetWvel_par` at src/rovertest.cpp:419-420). -/
structure Kin where
  pos : Vec3
  rot : Quat
  vel : Vec3
  wvel : Vec3
  deriving DecidableEq

/-- Dynamic state of one rigid body in the rigid-body solver: kinematics,
force/torque accumulators, and the fixed-flag set by `SetBodyFixed`. -/
structure Body where
  pos : Vec3
  rot : Quat
  vel : Vec3
  wvel : Vec3
  forceAcc : Vec3
  torqueAcc : Vec3
  fixed : Bool
  deriving DecidableEq

def Body.kin (b : Body) : Kin := ⟨b.pos, b.rot, b.vel, b.wvel⟩

def Body.withKin (b : Body) (k : Kin) : Body :=
  { b with pos := k.pos, rot := k.rot, vel := k.vel, wvel := k.wvel }

/-- `ChBody::Empty_forces_accumulators()` (src/rovertest.cpp:433): clears
both accumulators. -/
def Body.emptyAccumulators (b : Body) : Body :=
  { b with forceAcc := Vec3.zero, torqueAcc := Vec3.zero }

/-- Modelled from the spec: `accumulateForce(handle, force, atPosition)`
(`ChBody::Accumulate_force(F, P, false)`, src/rovertest.cpp:434, external
solver) — adds `F` to the force accumulator and the moment `(P − pos) × F`
of a force applied at the world point `P` to the torque accumulator. -/
def Body.accumulateForce (b : Body) (F P : Vec3) : Body :=
  { b with forceAcc := b.forceAcc.add F,
           torqueAcc := b.torqueAcc.add ((P.sub b.pos).cross F) }

/-- Modelled from the spec: `accumulateTorque(handle, torque)`
(`ChBody::Accumulate_torque(T, false)`, src/rovertest.cpp:435, external
solver) — adds `T` to the torque accumulator. -/
def Body.accumulateTorque (b : Body) (T : Vec3) : Body :=
  { b with torqueAcc := b.torqueAcc.add T }

/-- State owned by the coupling loop: the rigid bodies, the loop-local
one-shot flag `chassis_fixed` (src/rovertest.cpp:325) and the global
`terrain_height_offset` (src/rovertest.cpp:84). -/
structure SysState where
  bodies : BodyId → Body
  chassisFixedFlag : Bool
  terrainHeightOffset : ℚ

/-- Black-box view of the granular terrain solver, per step index: the
aggregated contact force and torque each mesh soup accumulates during that
step's `AdvanceSimulation`, and the `GetMaxParticleZ` query result. -/
structure TerrainOracle where
  collectF : ℕ → Fin 6 → Vec3
  collectT : ℕ → Fin 6 → Vec3
  maxParticleZ : ℕ → ℚ

/-- Modelled from the spec: `rover_sys.DoStepDynamics` ("advance integrates
all non-fixed bodies ... a body's fixed-flag, when true, excludes it from
integration"): a fixed body keeps its state, a non-fixed body receives the
kinematics the external integrator `integ` computes; the solver does not
touch accumulators or fixed-flags. -/
def advanceRigid (integ : (BodyId → Body) → BodyId → Kin)
    (bs : BodyId → Body) : BodyId → Body :=
  fun id => if (bs id).fixed then bs id else (bs id).withKin (integ bs id)

/-- Observable per-step actions of the coupling loop, in program order. -/
inductive Ev where
  | releaseChassis
  | recomputeOffset
  | applyMeshMotion (i : ℕ) (k : Kin)
  | advTerrain
  | advRigid
  | collectForces (i : ℕ)
  | emptyAccum (i : ℕ)
  | accumForce (i : ℕ) (F P : Vec3)
  | accumTorque (i : ℕ) (T : Vec3)
  | renderFrame
  deriving DecidableEq

/-- One iteration of the coupling loop body (src/rovertest.cpp:406-463) at
step index `k` (so the loop counter reads `t = k·h`), returning the new
state and the ordered list of observable actions: (1) the one-shot
fixed→free chassis transition guarded by `chassis_fixed && t >= 0.5`
(src 407-415); (2) pushing each wheel's kinematics into mesh soup `i` by
`ApplyMeshMotion` (src 416-421); (3) advancing the terrain then the rigid
solver (src 423-424); (4) per wheel: `CollectMeshContactForces`, then
`Empty_forces_accumulators`, then `Accumulate_force` at the body's current
position, then `Accumulate_torque` (src 426-436); (5) frame output when
`curr_step % out_steps == 0` (src 438-463), with `outv` the positive
`out_steps` value (`frameCheck` covers the `out_steps = 0` case). -/
def couplingStep (integ : (BodyId → Body) → BodyId → Kin) (orc : TerrainOracle)
    (h : ℚ) (outv : ℕ) (k : ℕ) (s : SysState) : SysState × List Ev :=
  let fire := s.chassisFixedFlag = true ∧ (1 : ℚ) / 2 ≤ (k : ℚ) * h
  let s1 : SysState :=
    if fire then
      { s with chassisFixedFlag := false,
               bodies := fun id =>
                 if id = BodyId.chassis then
                   { s.bodies id with fixed := false }
                 else s.bodies id,
               terrainHeightOffset :=
                 orc.maxParticleZ k + height_offset_chassis_to_bottom }
    else s
  let evT : List Ev := if fire then [.releaseChassis, .recomputeOffset] else []
  let evPush : List Ev :=
    (List.finRange 6).map
      (fun (i : Fin 6) =>
        .applyMeshMotion i ((s1.bodies (BodyId.wheel i)).kin))
  let s2 : SysState := { s1 with bodies := advanceRigid integ s1.bodies }
  let s3 : SysState :=
    { s2 with bodies := fun id =>
        match id with
        | BodyId.wheel i =>
          let b := s2.bodies (BodyId.wheel i)
          ((b.emptyAccumulators).accumulateForce (orc.collectF k i)
            b.pos).accumulateTorque (orc.collectT k i)
        | BodyId.chassis => s2.bodies BodyId.chassis }
  let evCollect : List Ev :=
    (List.finRange 6).flatMap
      (fun (i : Fin 6) =>
        [.collectForces i, .emptyAccum i,
         .accumForce i (orc.collectF k i) ((s2.bodies (BodyId.wheel i)).pos),
         .accumTorque i (orc.collectT k i)])
  let evFrame : List Ev := if k % outv = 0 then [.renderFrame] else []
  (s3, evT ++ evPush ++ [.advTerrain, .advRigid] ++ evCollect ++ evFrame)

/-- Initial chassis body (src/rovertest.cpp:317-340): placed at
`(-box_X/4, 0, 0)` with default orientation, zero velocities, clear
accumulators, and `SetBodyFixed(true)`. -/
def initChassis (box_X : ℚ) : Body :=
  ⟨⟨-box_X / 4, 0, 0⟩, ⟨1, 0, 0, 0⟩, Vec3.zero, Vec3.zero,
    Vec3.zero, Vec3.zero, true⟩

/-- Relative initial position of wheel `i` with respect to the chassis, in
the order of the six `addWheelBody` calls (src/rovertest.cpp:344-365). -/
def wheelRelOffset : Fin 6 → Vec3 :=
  ![⟨front_wheel_offset_x, front_wheel_offset_y, wheel_offset_z⟩,
    ⟨front_wheel_offset_x, -front_wheel_offset_y, wheel_offset_z⟩,
    ⟨middle_wheel_offset_x, middle_wheel_offset_y, wheel_offset_z⟩,
    ⟨middle_wheel_offset_x, -middle_wheel_offset_y, wheel_offset_z⟩,
    ⟨rear_wheel_offset_x, rear_wheel_offset_y, wheel_offset_z⟩,
    ⟨rear_wheel_offset_x, -rear_wheel_offset_y, wheel_offset_z⟩]

/-- Initial wheel body `i` (`addWheelBody`, src/rovertest.cpp:146-182):
positioned at the chassis position plus the relative offset, not fixed,
default orientation, zero velocities and accumulators. -/
def initWheel (box_X : ℚ) (i : Fin 6) : Body :=
  ⟨(initChassis box_X).pos.add (wheelRelOffset i), ⟨1, 0, 0, 0⟩,
    Vec3.zero, Vec3.zero, Vec3.zero, Vec3.zero, false⟩

/-- Coupling-loop state before the first step: bodies as created, the
one-shot flag `chassis_fixed = true` (src/rovertest.cpp:325), and the
initial `terrain_height_offset = params.box_Z +
height_offset_chassis_to_bottom` (src/rovertest.cpp:323). -/
def initState (box_X box_Z : ℚ) : SysState :=
  { bodies := fun id =>
      match id with
      | BodyId.wheel i => initWheel box_X i
      | BodyId.chassis => initChassis box_X,
    chassisFixedFlag := true,
    terrainHeightOffset := box_Z + height_offset_chassis_to_bottom }

/-- Coupling-loop state at the start of step `k` (after `k` executions of
the loop body). -/
def loopState (integ : (BodyId → Body) → BodyId → Kin) (orc : TerrainOracle)
    (h : ℚ) (outv : ℕ) (box_X box_Z : ℚ) : ℕ → SysState
  | 0 => initState box_X box_Z
  | k + 1 =>
    (couplingStep integ orc h outv k
      (loopState integ orc h outv box_X box_Z k)).1

/-- Bodies for which a mesh soup is registered with the terrain solver, in
registration order: each of the six `addWheelBody` calls appends exactly one
soup entry to `mesh_filenames` / `mesh_rotscales` / `mesh_translations` /
`mesh_masses` for its wheel (src/rovertest.cpp:177-181); no soup is ever
registered for the chassis, whose mesh file is loaded "For output only"
(src/rovertest.cpp:235-236). -/
def registeredSoupBodies : List BodyId := (List.finRange 6).map BodyId.wheel

/-- Trivial instantiation of the external integrator (bodies keep their
kinematics), used to evaluate the loop model at concrete inputs. -/
def idInteg : (BodyId → Body) → BodyId → Kin := fun bs id => (bs id).kin

/-- Trivial terrain oracle (zero contact forces, particle height zero),
used to evaluate the loop model at concrete inputs. -/
def zeroOracle : TerrainOracle := ⟨fun _ _ => Vec3.zero, fun _ _ => Vec3.zero, fun _ => 0⟩

/-- First step index whose simulated time `k·h` reaches the settle
threshold 0.5: the step at which the fixed→free transition fires. -/
def settleStep (h : ℚ) : ℕ := ⌈(1 : ℚ) / (2 * h)⌉₊

/-- Numeric value of a decimal digit character. -/
def digitVal (c : Char) : ℕ := c.toNat - 48

/-- Leading decimal-digit run of a character list, folded into `acc`;
returns the value and the unconsumed remainder.  Models the integer-part
scan of `std::stof`. -/
def parseDigitsAux (acc : ℕ) : List Char → ℕ × List Char
  | [] => (acc, [])
  | c :: cs =>
    if c.isDigit then parseDigitsAux (10 * acc + digitVal c) cs else (acc, c :: cs)

/-- Leading decimal-digit run of a character list as (value, digit count);
models the fractional-part scan of `std::stof`. -/
def parseFracAux : List Char → ℕ × ℕ
  | [] => (0, 0)
  | c :: cs =>
    if c.isDigit then
      let vk := parseFracAux cs
      (digitVal c * 10 ^ vk.2 + vk.1, vk.2 + 1)
    else (0, 0)

/-- Modelled from the spec: `std::stof` (src/rovertest.cpp:134 calls into
the C++ standard library, which is outside `src/`) on the checkpoint
format's tokens — an optional minus sign, a digit sequence, and an optional
`.`-separated fractional digit sequence; the exact parsed value over ℚ. -/
def stofNonneg (l : List Char) : ℚ :=
  let ipRest := parseDigitsAux 0 l
  match ipRest.2 with
  | c :: f =>
    if c = '.' then
      (ipRest.1 : ℚ) + ((parseFracAux f).1 : ℚ) / 10 ^ (parseFracAux f).2
    else (ipRest.1 : ℚ)
  | [] => (ipRest.1 : ℚ)

/-- Sign-handling wrapper of `stofNonneg`, completing the `std::stof`
model: a leading minus sign negates the parsed magnitude. -/
def stof (l : List Char) : ℚ :=
  match l with
  | c :: rest => if c = '-' then -(stofNonneg rest) else stofNonneg (c :: rest)
  | [] => stofNonneg []

/-- One iteration of the token scan in `loadCheckpointFile`
(src/rovertest.cpp:131-139): `pos = line.find(',')`, `tok =
line.substr(0, pos)`, `point[i] = std::stof(tok)`, `line.erase(0, pos + 1)`.
When no comma is found, `find` returns `npos`, `substr(0, npos)` yields the
whole line, and `erase(0, npos + 1)` erases nothing because `npos + 1`
wraps to 0. -/
def parseCoord (line : List Char) : ℚ × List Char :=
  match line.findIdx? (fun c => c = ',') with
  | some p => (stof (line.take p), line.drop (p + 1))
  | none => (stof line, line)

/-- Parse one checkpoint body line into a point: the `for (i < 3)` loop of
`loadCheckpointFile` (src/rovertest.cpp:131-139).  The `find` before the
loop (src/rovertest.cpp:127) is recomputed inside the loop and has no
effect. -/
def parseLine (line : List Char) : Vec3 :=
  let xr := parseCoord line
  let yr := parseCoord xr.2
  let zr := parseCoord yr.2
  ⟨xr.1, yr.1, zr.1⟩

/-- `loadCheckpointFile` (src/rovertest.cpp:113-144) on the lines of an
already-opened file: the first `getline` discards the header, then every
further line is parsed into one point, in order. -/
def loadCheckpointFile : List (List Char) → List Vec3
  | [] => []
  | _ :: rest => rest.map parseLine

/-- Big-endian decimal digit characters of `n`, most significant first;
`fuel` bounds the recursion (`fuel ≥ n` suffices). -/
def natChars : ℕ → ℕ → List Char
  | 0, _ => []
  | fuel + 1, n =>
    if n = 0 then [] else natChars fuel (n / 10) ++ [Nat.digitChar (n % 10)]

/-- Decimal rendering of a natural number (`"0"` for zero). -/
def printNat (n : ℕ) : List Char := if n = 0 then ['0'] else natChars n n

/-- Left-pad a digit string with `'0'` to length `p`. -/
def padZeros (p : ℕ) (l : List Char) : List Char :=
  List.replicate (p - l.length) '0' ++ l

/-- Fixed-point decimal rendering of a magnitude `n` counted in `10^-p`
units: integer part, `'.'`, and exactly `p` fractional digits. -/
def printFixed (p n : ℕ) : List Char :=
  printNat (n / 10 ^ p) ++ '.' :: padZeros p (printNat (n % 10 ^ p))

/-- Rounding of a rational to `p` decimal places: what writing a value in a
fixed-point decimal format of `p` fractional digits loses. -/
def roundDec (p : ℕ) (v : ℚ) : ℚ := (round (v * 10 ^ p) : ℚ) / 10 ^ p

/-- Componentwise decimal rounding of a point. -/
def roundDecVec (p : ℕ) (v : Vec3) : Vec3 :=
  ⟨roundDec p v.x, roundDec p v.y, roundDec p v.z⟩

/-- Fixed-point decimal rendering of a rational at `p` decimal places:
minus sign when the rounded value is negative, then `printFixed`. -/
def printDec (p : ℕ) (v : ℚ) : List Char :=
  let m : ℤ := round (v * 10 ^ p)
  if m < 0 then '-' :: printFixed p m.natAbs else printFixed p m.natAbs

/-- Modelled from the spec: one body line of the checkpoint writer — the
writer is the terrain solver's `WriteFile` in CSV mode
(src/rovertest.cpp:466-470, external to `src/`), specified as "one line per
particle: `x,y,z` (comma-delimited, no trailing metadata)", with
coordinates in a fixed-point decimal format of `p` fractional digits. -/
def saveLine (p : ℕ) (v : Vec3) : List Char :=
  printDec p v.x ++ ',' :: printDec p v.y ++ ',' :: printDec p v.z

/-- Modelled from the spec: the checkpoint writer — "one header line
(discarded), then one line per particle", written with the same schema
`loadCheckpointFile` reads. -/
def saveCheckpoint (p : ℕ) (pts : List Vec3) : List (List Char) :=
  ['x', ',', 'y', ',', 'z'] :: pts.map (saveLine p)

/-- Value of a big-endian decimal digit string, used to relate the printing
and parsing directions. -/
def valBE : List Char → ℕ
  | [] => 0
  | c :: cs => digitVal c * 10 ^ cs.length + valBE cs

/-- Run phase `RUN_MODE { SETTLING = 0, TESTING = 1 }`
(src/rovertest.cpp:86). -/
inductive RunMode where
  | settling
  | testing
  deriving DecidableEq

/-- Observable actions of `main` from entry to exit, in program order. -/
inductive MainEv where
  | parseConfig
  | constructSolvers
  | sampleParticles
  | openCheckpoint
  | reportCheckpointError
  | exitProcess (code : ℕ)
  | createOutputDirs
  | initializeTerrain
  | runStep (k : ℕ)
  | writeOutputFile
  | writeCheckpoint
  deriving DecidableEq

/-- Control-flow trace of `main` (src/rovertest.cpp:227-477): CLI/JSON
parsing (231), granular-system construction (256), then particle
initialization — sampling in SETTLING (270) or `loadCheckpointFile` in
TESTING (273), which prints an error and calls `exit(1)` when the file
cannot be opened (119-122) — then output-directory creation (375-378),
terrain initialization (383), the coupling loop of `nsteps` steps writing
output files at frame steps (406-464), the final checkpoint write in
SETTLING (466-470), and `return 0` (477).  `frameAt` abstracts the frame
cadence, `cpOpens` whether the checkpoint file can be opened. -/
def mainTrace (mode : RunMode) (cpOpens : Bool) (frameAt : ℕ → Bool)
    (nsteps : ℕ) : List MainEv :=
  [MainEv.parseConfig, MainEv.constructSolvers] ++
  match mode, cpOpens with
  | RunMode.testing, false =>
    [MainEv.openCheckpoint, MainEv.reportCheckpointError, MainEv.exitProcess 1]
  | RunMode.testing, true =>
    [MainEv.openCheckpoint, MainEv.createOutputDirs, MainEv.initializeTerrain] ++
    (List.range nsteps).flatMap
      (fun k => MainEv.runStep k ::
        (if frameAt k then [MainEv.writeOutputFile] else [])) ++
    [MainEv.exitProcess 0]
  | RunMode.settling, _ =>
    [MainEv.sampleParticles, MainEv.createOutputDirs, MainEv.initializeTerrain] ++
    (List.range nsteps).flatMap
      (fun k => MainEv.runStep k ::
        (if frameAt k then [MainEv.writeOutputFile] else [])) ++
    [MainEv.writeCheckpoint, MainEv.exitProcess 0]

/-- Soup index pushed by an event, when the event is a mesh-motion push. -/
def pushIdx : Ev → Option ℕ
  | Ev.applyMeshMotion i _ => some i
  | _ => none

/-- Does an event touch wheel `i`'s force/torque accumulators? -/
def accTouch (i : ℕ) : Ev → Bool
  | Ev.emptyAccum j => j = i
  | Ev.accumForce j _ _ => j = i
  | Ev.accumTorque j _ => j = i
  | _ => false

theorem Vec3.zero_add (v : Vec3) : Vec3.zero.add v = v := by
  cases v
  simp [Vec3.add, Vec3.zero]

theorem Vec3.sub_self (v : Vec3) : v.sub v = Vec3.zero := by
  cases v
  simp [Vec3.sub, Vec3.zero]

theorem Vec3.zero_cross (v : Vec3) : Vec3.zero.cross v = Vec3.zero := by
  cases v
  simp [Vec3.cross, Vec3.zero]

theorem Quat.normSq_nonneg (q : Quat) : 0 ≤ q.normSq := by
  obtain ⟨a, b, c, d⟩ := q
  simp only [Quat.normSq]
  positivity

theorem lenSq_xAxis (q : Quat) : (q.xAxis).lenSq = q.normSq ^ 2 := by
  obtain ⟨a, b, c, d⟩ := q
  simp only [Quat.xAxis, Quat.normSq, Vec3.lenSq, Vec3.dot]
  ring

theorem lenSq_yAxis (q : Quat) : (q.yAxis).lenSq = q.normSq ^ 2 := by
  obtain ⟨a, b, c, d⟩ := q
  simp only [Quat.yAxis, Quat.normSq, Vec3.lenSq, Vec3.dot]
  ring

theorem lenSq_zAxis (q : Quat) : (q.zAxis).lenSq = q.normSq ^ 2 := by
  obtain ⟨a, b, c, d⟩ := q
  simp only [Quat.zAxis, Quat.normSq, Vec3.lenSq, Vec3.dot]
  ring

/-- The lengths `vx.Length()`, `vy.Length()`, `vz.Length()` computed by
`writeMeshFrames` before normalizing are all exactly `q.normSq`, which
justifies the exact rational normalization used in `unitX`, `unitY`,
`unitZ`. -/
theorem axis_length_eq_normSq (q : Quat) :
    Real.sqrt (((q.xAxis).lenSq : ℝ)) = (q.normSq : ℝ) ∧
    Real.sqrt (((q.yAxis).lenSq : ℝ)) = (q.normSq : ℝ) ∧
    Real.sqrt (((q.zAxis).lenSq : ℝ)) = (q.normSq : ℝ) := by
  have h0 : (0 : ℝ) ≤ (q.normSq : ℝ) := by exact_mod_cast q.normSq_nonneg
  refine ⟨?_, ?_, ?_⟩
  · rw [lenSq_xAxis]
    push_cast
    exact Real.sqrt_sq h0
  · rw [lenSq_yAxis]
    push_cast
    exact Real.sqrt_sq h0
  · rw [lenSq_zAxis]
    push_cast
    exact Real.sqrt_sq h0

/-- C9: for any CLI gravity angle `deg` (degrees), both solvers receive the
gravity vector `(-g·sin θ, 0, -g·cos θ)` with magnitude `g = mars_grav_mag
= 370` and `θ = 2π·deg/360` radians — gravity rotated about the +Y
horizontal axis only. -/
theorem gravity_matches_spec (deg : ℝ) :
    gpuGravity deg = specGravity deg ∧ roverGravity deg = specGravity deg ∧
    mars_grav_mag = 370 := by
  refine ⟨?_, ?_, rfl⟩ <;>
    simp [gpuGravity, roverGravity, specGravity, gravGx, gravGy, gravGz,
      grav_angle, mars_grav_mag]

/-- C10: the frame interval `out_steps` is the integer truncation of
`1/(out_fps·h)`; whenever `out_fps·h > 1` it truncates to 0 and the
cadence check `curr_step % out_steps` is a modulo by zero (undefined
behaviour, modelled as `none`), so the cadence is well-defined exactly
under the precondition `out_fps·h ≤ 1`. -/
theorem out_steps_trunc_guard (h : ℚ) (k : ℕ) (hpos : 0 < h) :
    outSteps h = (⌊1 / ((out_fps : ℚ) * h)⌋).toNat ∧
    (1 < (out_fps : ℚ) * h → outSteps h = 0) ∧
    ((frameCheck h k).isSome ↔ (out_fps : ℚ) * h ≤ 1) := by
  have hf : (0 : ℚ) < (out_fps : ℚ) * h := by
    have h50 : (0 : ℚ) < (out_fps : ℚ) := by norm_num [out_fps]
    positivity
  have hiff : outSteps h ≠ 0 ↔ (out_fps : ℚ) * h ≤ 1 := by
    rw [outSteps, ne_eq, Int.toNat_eq_zero, not_le, Int.floor_pos,
      le_div_iff₀ hf, one_mul]
  refine ⟨rfl, ?_, ?_⟩
  · intro hgt
    by_contra hne
    exact absurd (hiff.mp hne) (not_le.mpr hgt)
  · have hsome : (frameCheck h k).isSome ↔ outSteps h ≠ 0 := by
      rw [frameCheck]
      by_cases hz : outSteps h = 0
      · simp [hz]
      · simp [hz]
    rw [hsome, hiff]

set_option maxRecDepth 400000 in
/-- C4 counterexample: the SETTLING coupling loop with `time_end = 1.0` and
`h = 0.005` does not execute 200 steps — the single-precision accumulation
of the loop counter reaches only ≈0.99999968 after 200 increments. -/
theorem settling_steps_not_200 : settlingStepCount ≠ 200 := by decide

set_option maxRecDepth 400000 in
/-- C4 amended: the loop runs while the single-precision accumulated time
is below `duration(phase)`; for a SETTLING run with `time_end = 1.0` and
`h = 0.005` it executes exactly 201 steps — one more than
`duration(phase)/h = 200` — because the accumulated counter is still below
1.0 after 200 increments. -/
theorem settling_step_count_201 :
    settlingStepCount = 201 ∧ time_settling / (5 / 1000) = (200 : ℚ) :=
  ⟨by decide, by norm_num [time_settling]⟩

/-- C8: for any input body orientation (a quaternion of nonzero norm —
the zero quaternion represents no orientation), the three basis vectors
written by the frame recorder are unit length and mutually orthogonal, and
the normalization never divides by a zero vector length: each rotated axis
has squared length `normSq² ≠ 0`. -/
theorem mesh_frame_basis_orthonormal (q : Quat) (hq : q.normSq ≠ 0) :
    (unitX q).lenSq = 1 ∧ (unitY q).lenSq = 1 ∧ (unitZ q).lenSq = 1 ∧
    (unitX q).dot (unitY q) = 0 ∧ (unitY q).dot (unitZ q) = 0 ∧
    (unitX q).dot (unitZ q) = 0 ∧
    (q.xAxis).lenSq ≠ 0 ∧ (q.yAxis).lenSq ≠ 0 ∧ (q.zAxis).lenSq ≠ 0 := by
  obtain ⟨a, b, c, d⟩ := q
  have hn : a ^ 2 + b ^ 2 + c ^ 2 + d ^ 2 ≠ 0 := by
    simpa [Quat.normSq] using hq
  refine ⟨?_, ?_, ?_, ?_, ?_, ?_, ?_, ?_, ?_⟩
  · field_simp [unitX, Quat.xAxis, Quat.normSq, Vec3.lenSq, Vec3.dot, Vec3.smul]
    ring
  · field_simp [unitY, Quat.yAxis, Quat.normSq, Vec3.lenSq, Vec3.dot, Vec3.smul]
    ring
  · field_simp [unitZ, Quat.zAxis, Quat.normSq, Vec3.lenSq, Vec3.dot, Vec3.smul]
    ring
  · simp only [unitX, unitY, Quat.xAxis, Quat.yAxis, Quat.normSq, Vec3.dot,
      Vec3.smul]
    ring
  · simp only [unitY, unitZ, Quat.yAxis, Quat.zAxis, Quat.normSq, Vec3.dot,
      Vec3.smul]
    ring
  · simp only [unitX, unitZ, Quat.xAxis, Quat.zAxis, Quat.normSq, Vec3.dot,
      Vec3.smul]
    ring
  · rw [lenSq_xAxis]
    exact pow_ne_zero 2 (by simpa [Quat.normSq] using hn)
  · rw [lenSq_yAxis]
    exact pow_ne_zero 2 (by simpa [Quat.normSq] using hn)
  · rw [lenSq_zAxis]
    exact pow_ne_zero 2 (by simpa [Quat.normSq] using hn)

/-- C8 witness: the property at the concrete non-unit orientation
`q = (1, 2, 3, 4)`, whose norm is nonzero. -/
theorem mesh_frame_basis_orthonormal_witness :
    Quat.normSq ⟨1, 2, 3, 4⟩ ≠ 0 ∧
    ((unitX ⟨1, 2, 3, 4⟩).lenSq = 1 ∧ (unitY ⟨1, 2, 3, 4⟩).lenSq = 1 ∧
      (unitZ ⟨1, 2, 3, 4⟩).lenSq = 1 ∧
      (unitX ⟨1, 2, 3, 4⟩).dot (unitY ⟨1, 2, 3, 4⟩) = 0 ∧
      (unitY ⟨1, 2, 3, 4⟩).dot (unitZ ⟨1, 2, 3, 4⟩) = 0 ∧
      (unitX ⟨1, 2, 3, 4⟩).dot (unitZ ⟨1, 2, 3, 4⟩) = 0 ∧
      (Quat.xAxis ⟨1, 2, 3, 4⟩).lenSq ≠ 0 ∧
      (Quat.yAxis ⟨1, 2, 3, 4⟩).lenSq ≠ 0 ∧
      (Quat.zAxis ⟨1, 2, 3, 4⟩).lenSq ≠ 0) :=
  ⟨by norm_num [Quat.normSq],
    mesh_frame_basis_orthonormal ⟨1, 2, 3, 4⟩ (by norm_num [Quat.normSq])⟩

theorem finRange_six : List.finRange 6 = [0, 1, 2, 3, 4, 5] := by decide

theorem outSteps_settling : outSteps (5 / 1000) = 4 := by
  have h4 : (⌊1 / ((out_fps : ℚ) * (5 / 1000))⌋ : ℤ) = 4 := by
    norm_num [out_fps]
  show (⌊1 / ((out_fps : ℚ) * (5 / 1000))⌋).toNat = 4
  rw [h4]
  rfl

theorem outSteps_three : outSteps (3 / 1000) = 6 := by
  have h6 : (⌊1 / ((out_fps : ℚ) * (3 / 1000))⌋ : ℤ) = 6 := by
    norm_num [out_fps]
  show (⌊1 / ((out_fps : ℚ) * (3 / 1000))⌋).toNat = 6
  rw [h6]
  rfl

/-- C1: after the force-collection phase of step `k`, every wheel body `i`
holds in its force accumulator exactly the force collected from mesh soup
`i` for that step and in its torque accumulator exactly the collected
torque; within the step, the accumulator events for wheel `i` are exactly
one clear followed by one force accumulation — applied at the body's
current position — and one torque accumulation, so no force is dropped or
duplicated across the clear/accumulate sequence. -/
theorem collect_phase_exact (integ : (BodyId → Body) → BodyId → Kin)
    (orc : TerrainOracle) (h : ℚ) (outv k : ℕ) (s : SysState) (i : Fin 6) :
    ((couplingStep integ orc h outv k s).1.bodies (BodyId.wheel i)).forceAcc
        = orc.collectF k i ∧
    ((couplingStep integ orc h outv k s).1.bodies (BodyId.wheel i)).torqueAcc
        = orc.collectT k i ∧
    (couplingStep integ orc h outv k s).2.filter (accTouch i)
        = [Ev.emptyAccum i,
           Ev.accumForce i (orc.collectF k i)
             (((couplingStep integ orc h outv k s).1.bodies
                 (BodyId.wheel i)).pos),
           Ev.accumTorque i (orc.collectT k i)] := by
  refine ⟨?_, ?_, ?_⟩
  · simp [couplingStep, Body.emptyAccumulators, Body.accumulateForce,
      Body.accumulateTorque, Vec3.zero_add]
  · simp [couplingStep, Body.emptyAccumulators, Body.accumulateForce,
      Body.accumulateTorque, Vec3.sub_self, Vec3.zero_cross, Vec3.zero_add]
  · simp only [couplingStep]
    fin_cases i <;>
      simp +decide [List.filter_append, apply_ite (List.filter _),
        finRange_six, accTouch, Body.emptyAccumulators, Body.accumulateForce,
        Body.accumulateTorque]

/-- C2 amended: at every step of the coupling loop, each of the six wheel
bodies' current position, orientation, linear velocity and angular velocity
(read at the start of the step) are written into mesh soup `i` before
either solver is advanced for that step; the chassis, however, has no
registered mesh soup and its state is never pushed — the chassis part of
the claim fails (see the counterexample). -/
theorem wheel_push_before_advance (integ : (BodyId → Body) → BodyId → Kin)
    (orc : TerrainOracle) (h : ℚ) (outv k : ℕ) (s : SysState) (i : Fin 6) :
    ∃ pre post,
      (couplingStep integ orc h outv k s).2
          = pre ++ Ev.advTerrain :: Ev.advRigid :: post ∧
      Ev.applyMeshMotion i ((s.bodies (BodyId.wheel i)).kin) ∈ pre ∧
      (∀ e ∈ pre, pushIdx e = none ∨ ∃ j : Fin 6, pushIdx e = some j) ∧
      (∀ e ∈ post, pushIdx e = none) ∧
      Ev.advTerrain ∉ pre ∧ Ev.advRigid ∉ pre ∧
      BodyId.chassis ∉ registeredSoupBodies := by
  classical
  refine ⟨(if s.chassisFixedFlag = true ∧ (1 : ℚ) / 2 ≤ (k : ℚ) * h then
      [Ev.releaseChassis, Ev.recomputeOffset] else []) ++
      (List.finRange 6).map
        (fun (j : Fin 6) =>
          Ev.applyMeshMotion j ((s.bodies (BodyId.wheel j)).kin)),
    ((List.finRange 6).flatMap
      (fun (j : Fin 6) =>
        [Ev.collectForces j, Ev.emptyAccum j,
         Ev.accumForce j (orc.collectF k j)
           (((couplingStep integ orc h outv k s).1.bodies
               (BodyId.wheel j)).pos),
         Ev.accumTorque j (orc.collectT k j)])) ++
      (if k % outv = 0 then [Ev.renderFrame] else []),
    ?_, ?_, ?_, ?_, ?_, ?_, ?_⟩
  · by_cases hf : s.chassisFixedFlag = true ∧ (1 : ℚ) / 2 ≤ (k : ℚ) * h
    · obtain ⟨hf1, hf2⟩ := hf
      rw [one_div] at hf2
      simp [couplingStep, hf1, hf2, Body.emptyAccumulators,
        Body.accumulateForce, Body.accumulateTorque]
    · simp only [one_div] at hf
      simp [couplingStep, hf, Body.emptyAccumulators,
        Body.accumulateForce, Body.accumulateTorque]
  · have hmem : Ev.applyMeshMotion i ((s.bodies (BodyId.wheel i)).kin)
        ∈ (List.finRange 6).map
          (fun (j : Fin 6) =>
            Ev.applyMeshMotion j ((s.bodies (BodyId.wheel j)).kin)) :=
      List.mem_map_of_mem _ (List.mem_finRange i)
    exact List.mem_append.mpr (Or.inr hmem)
  · intro e he
    rcases List.mem_append.mp he with hl | hr
    · left
      by_cases hf : s.chassisFixedFlag = true ∧ (1 : ℚ) / 2 ≤ (k : ℚ) * h
      · rw [if_pos hf] at hl
        simp only [List.mem_cons, List.not_mem_nil, or_false] at hl
        rcases hl with rfl | rfl <;> rfl
      · rw [if_neg hf] at hl
        exact absurd hl (List.not_mem_nil e)
    · right
      rcases List.mem_map.mp hr with ⟨j, _, rfl⟩
      exact ⟨j, rfl⟩
  · intro e he
    rcases List.mem_append.mp he with hl | hr
    · rcases List.mem_flatMap.mp hl with ⟨j, _, hj⟩
      simp only [List.mem_cons, List.not_mem_nil, or_false] at hj
      rcases hj with rfl | rfl | rfl | rfl <;> rfl
    · by_cases hm : k % outv = 0
      · rw [if_pos hm] at hr
        simp only [List.mem_cons, List.not_mem_nil, or_false] at hr
        subst hr
        rfl
      · rw [if_neg hm] at hr
        exact absurd hr (List.not_mem_nil e)
  · by_cases hf : s.chassisFixedFlag = true ∧ (1 : ℚ) / 2 ≤ (k : ℚ) * h <;>
      simp [hf]
  · by_cases hf : s.chassisFixedFlag = true ∧ (1 : ℚ) / 2 ≤ (k : ℚ) * h <;>
      simp [hf]
  · decide

/-- C2 counterexample: in the run with `h = 1/2` the chassis is free from
step 2 on, yet the pushes of step 2 target exactly the six wheel soups
0–5 and no mesh soup was ever registered for the chassis: the chassis
kinematic state is not written to the terrain model once it is free. -/
theorem chassis_push_counterexample :
    BodyId.chassis ∉ registeredSoupBodies ∧
    (loopState idInteg zeroOracle (1 / 2) 1 100 50 2).chassisFixedFlag
        = false ∧
    ((loopState idInteg zeroOracle (1 / 2) 1 100 50 2).bodies
        BodyId.chassis).fixed = false ∧
    ((couplingStep idInteg zeroOracle (1 / 2) 1 2
        (loopState idInteg zeroOracle (1 / 2) 1 100 50 2)).2.filterMap
          pushIdx) = [0, 1, 2, 3, 4, 5] := by
  have hstate : ∀ P : SysState → Prop,
      P (loopState idInteg zeroOracle (1 / 2) 1 100 50 2) →
      True := fun _ _ => trivial
  have hflag : (loopState idInteg zeroOracle (1 / 2) 1 100 50 2).chassisFixedFlag
      = false := by
    norm_num [loopState, couplingStep, initState, advanceRigid, idInteg,
      Body.withKin, Body.kin, initChassis, Body.emptyAccumulators,
      Body.accumulateForce, Body.accumulateTorque, zeroOracle]
  refine ⟨by decide, hflag, ?_, ?_⟩
  · norm_num [loopState, couplingStep, initState, advanceRigid, idInteg,
      Body.withKin, Body.kin, initChassis, Body.emptyAccumulators,
      Body.accumulateForce, Body.accumulateTorque, zeroOracle]
  · simp only [one_div] at hflag
    simp +decide [couplingStep, hflag, finRange_six, pushIdx]

/-- C5 amended: the frame recorder fires exactly at the steps that are
multiples of the truncated interval `out_steps = ⌊1/(out_fps·h)⌋` — the
integer truncation, not the rounding, of `1/(out_fps·h)` — whenever that
truncation is positive; at the scenario values `out_fps = 50`, `h = 0.005`
the interval is 4 steps. -/
theorem frame_cadence_trunc (integ : (BodyId → Body) → BodyId → Kin)
    (orc : TerrainOracle) (h : ℚ) (k : ℕ) (s : SysState)
    (hpos : outSteps h ≠ 0) :
    (Ev.renderFrame ∈ (couplingStep integ orc h (outSteps h) k s).2
        ↔ k % outSteps h = 0) ∧
    outSteps (5 / 1000) = 4 := by
  constructor
  · by_cases hf : s.chassisFixedFlag = true ∧ (1 : ℚ) / 2 ≤ (k : ℚ) * h <;>
      by_cases hm : k % outSteps h = 0 <;>
      simp [couplingStep, hf, hm, finRange_six]
  · exact outSteps_settling

/-- C5 witness: the cadence at `h = 0.005`, step 8 (a frame step: 8 is a
multiple of the interval 4). -/
theorem frame_cadence_trunc_witness :
    outSteps (5 / 1000) ≠ 0 ∧
    ((Ev.renderFrame ∈ (couplingStep idInteg zeroOracle (5 / 1000)
        (outSteps (5 / 1000)) 8 (initState 100 50)).2
        ↔ 8 % outSteps (5 / 1000) = 0) ∧
      outSteps (5 / 1000) = 4) :=
  ⟨by rw [outSteps_settling]; norm_num,
    frame_cadence_trunc idInteg zeroOracle (5 / 1000) 8 (initState 100 50)
      (by rw [outSteps_settling]; norm_num)⟩

/-- C5 counterexample: with `h = 0.003` the spec's cadence quantity
`round(1/(50·h)) = 7` is positive, yet the recorder fires at step 6 — the
code's interval is the truncation `out_steps = 6` — and 6 is not a multiple
of 7, so the recorder is invoked at steps other than every
`round(1/(out_fps·h))`-th one. -/
theorem frame_cadence_round_counterexample :
    roundCadence (3 / 1000) = 7 ∧ outSteps (3 / 1000) = 6 ∧
    frameCheck (3 / 1000) 6 = some true ∧ ¬(6 % 7 = 0) ∧
    Ev.renderFrame ∈ (couplingStep idInteg zeroOracle (3 / 1000)
      (outSteps (3 / 1000)) 6 (initState 100 50)).2 := by
  have ho : outSteps (3 / 1000) = 6 := outSteps_three
  refine ⟨?_, ho, ?_, by norm_num, ?_⟩
  · rw [roundCadence, round_eq]
    norm_num [out_fps]
  · rw [frameCheck, ho]
    norm_num
  · simp [couplingStep, ho, finRange_six]

theorem settle_threshold_iff (h : ℚ) (hpos : 0 < h) (k : ℕ) :
    ((1 : ℚ) / 2 ≤ (k : ℚ) * h) ↔ settleStep h ≤ k := by
  rw [settleStep, Nat.ceil_le,
    div_le_iff₀ (show (0 : ℚ) < 2 * h by positivity),
    div_le_iff₀ (show (0 : ℚ) < 2 by norm_num)]
  constructor <;> intro hx <;> nlinarith [hx]

theorem chassisFlag_eq (integ : (BodyId → Body) → BodyId → Kin)
    (orc : TerrainOracle) (h : ℚ) (outv : ℕ) (bX bZ : ℚ) (hpos : 0 < h)
    (k : ℕ) :
    (loopState integ orc h outv bX bZ k).chassisFixedFlag
      = decide (k ≤ settleStep h) := by
  induction k with
  | zero => simp [loopState, initState]
  | succ k ih =>
    have hiff := settle_threshold_iff h hpos k
    by_cases hc : (loopState integ orc h outv bX bZ k).chassisFixedFlag = true
        ∧ (1 : ℚ) / 2 ≤ (k : ℚ) * h
    · have hk1 : k ≤ settleStep h := by
        have hc1 := hc.1
        rw [ih] at hc1
        simpa using hc1
      have hk2 : settleStep h ≤ k := hiff.mp hc.2
      have hk : k = settleStep h := le_antisymm hk1 hk2
      simp only [loopState, couplingStep]
      rw [if_pos hc]
      simp [hk]
    · simp only [loopState, couplingStep]
      rw [if_neg hc]
      rw [ih]
      rcases Decidable.em ((loopState integ orc h outv bX bZ k).chassisFixedFlag
          = true) with hflag | hflag
      · have hnc : ¬ ((1 : ℚ) / 2 ≤ (k : ℚ) * h) := fun hx => hc ⟨hflag, hx⟩
        have hlt : k < settleStep h := by
          rcases Nat.lt_or_ge k (settleStep h) with hy | hy
          · exact hy
          · exact absurd (hiff.mpr hy) hnc
        simp
        omega
      · have : ¬ (k ≤ settleStep h) := by
          rw [ih] at hflag
          simpa using hflag
        simp
        omega

theorem chassis_before (integ : (BodyId → Body) → BodyId → Kin)
    (orc : TerrainOracle) (h : ℚ) (outv : ℕ) (bX bZ : ℚ) (hpos : 0 < h)
    (k : ℕ) (hk : k ≤ settleStep h) :
    (loopState integ orc h outv bX bZ k).bodies BodyId.chassis
      = initChassis bX := by
  induction k with
  | zero => rfl
  | succ k ih =>
    have hk' : k ≤ settleStep h := Nat.le_of_succ_le hk
    have hlt : k < settleStep h := hk
    have hnotfire : ¬ ((1 : ℚ) / 2 ≤ (k : ℚ) * h) := by
      rw [settle_threshold_iff h hpos k]
      omega
    simp only [loopState, couplingStep]
    rw [if_neg (fun hcc => hnotfire hcc.2)]
    simp [advanceRigid, ih hk', initChassis]

theorem chassis_free_after (integ : (BodyId → Body) → BodyId → Kin)
    (orc : TerrainOracle) (h : ℚ) (outv : ℕ) (bX bZ : ℚ) (hpos : 0 < h)
    (k : ℕ) (hk : settleStep h < k) :
    ((loopState integ orc h outv bX bZ k).bodies BodyId.chassis).fixed
      = false := by
  induction k with
  | zero => omega
  | succ k ih =>
    rcases Nat.lt_or_ge (settleStep h) k with hgt | hge
    · have hflag : (loopState integ orc h outv bX bZ k).chassisFixedFlag
          = false := by
        rw [chassisFlag_eq integ orc h outv bX bZ hpos k]
        simp
        omega
      simp only [loopState, couplingStep]
      rw [if_neg (fun hcc => by
        rw [hflag] at hcc
        exact Bool.false_ne_true hcc.1)]
      simp [advanceRigid, ih hgt, Body.withKin]
    · have hkN : k = settleStep h := by omega
      have hflag : (loopState integ orc h outv bX bZ k).chassisFixedFlag
          = true := by
        rw [chassisFlag_eq integ orc h outv bX bZ hpos k]
        simp [hkN]
      have hcond : (1 : ℚ) / 2 ≤ (k : ℚ) * h :=
        (settle_threshold_iff h hpos k).mpr (le_of_eq hkN.symm)
      simp only [loopState, couplingStep]
      rw [if_pos ⟨hflag, hcond⟩]
      simp [advanceRigid, Body.withKin]

/-- C3: the fixed→free chassis transition fires exactly at the first loop
step whose simulated time `k·h` reaches the 0.5 settle threshold (that step
is `settleStep h = ⌈1/(2h)⌉`): the one-shot flag is set at every earlier
step and the chassis body is unchanged across those steps (the rigid solver
keeps fixed bodies in place); from the step after the transition on, the
chassis fixed-flag is cleared, so it is eligible for integration; and the
terrain-height-offset recomputation from the current maximum particle
height runs during exactly that one step. -/
theorem fixed_free_transition (integ : (BodyId → Body) → BodyId → Kin)
    (orc : TerrainOracle) (h : ℚ) (outv : ℕ) (bX bZ : ℚ) (k : ℕ)
    (hpos : 0 < h) :
    (((1 : ℚ) / 2 ≤ (k : ℚ) * h) ↔ settleStep h ≤ k) ∧
    (Ev.releaseChassis ∈ (couplingStep integ orc h outv k
        (loopState integ orc h outv bX bZ k)).2 ↔ k = settleStep h) ∧
    (Ev.recomputeOffset ∈ (couplingStep integ orc h outv k
        (loopState integ orc h outv bX bZ k)).2 ↔ k = settleStep h) ∧
    ((loopState integ orc h outv bX bZ k).chassisFixedFlag
      = decide (k ≤ settleStep h)) ∧
    (k ≤ settleStep h →
      (loopState integ orc h outv bX bZ k).bodies BodyId.chassis
        = initChassis bX) ∧
    (k < settleStep h →
      (loopState integ orc h outv bX bZ (k + 1)).bodies BodyId.chassis
        = (loopState integ orc h outv bX bZ k).bodies BodyId.chassis) ∧
    (settleStep h < k →
      ((loopState integ orc h outv bX bZ k).bodies BodyId.chassis).fixed
        = false) ∧
    (k = settleStep h →
      (loopState integ orc h outv bX bZ (k + 1)).terrainHeightOffset
        = orc.maxParticleZ k + height_offset_chassis_to_bottom) := by
  have hiff := settle_threshold_iff h hpos k
  have hflag := chassisFlag_eq integ orc h outv bX bZ hpos k
  have hfire : ((loopState integ orc h outv bX bZ k).chassisFixedFlag = true
      ∧ (1 : ℚ) / 2 ≤ (k : ℚ) * h) ↔ k = settleStep h := by
    rw [hflag, hiff]
    simp
    omega
  refine ⟨hiff, ?_, ?_, hflag, fun hk =>
    chassis_before integ orc h outv bX bZ hpos k hk, ?_, fun hk =>
    chassis_free_after integ orc h outv bX bZ hpos k hk, ?_⟩
  · by_cases hc : (loopState integ orc h outv bX bZ k).chassisFixedFlag = true
        ∧ (1 : ℚ) / 2 ≤ (k : ℚ) * h
    · rw [← hfire]
      simp only [couplingStep]
      rw [if_pos hc]
      have hc2 : (2⁻¹ : ℚ) ≤ (k : ℚ) * h := by simpa [one_div] using hc.2
      simp [hc.1, hc2]
    · rw [← hfire]
      simp only [couplingStep]
      rw [if_neg hc]
      exact iff_of_false (by by_cases hm : k % outv = 0 <;> simp [hm]) hc
  · by_cases hc : (loopState integ orc h outv bX bZ k).chassisFixedFlag = true
        ∧ (1 : ℚ) / 2 ≤ (k : ℚ) * h
    · rw [← hfire]
      simp only [couplingStep]
      rw [if_pos hc]
      have hc2 : (2⁻¹ : ℚ) ≤ (k : ℚ) * h := by simpa [one_div] using hc.2
      simp [hc.1, hc2]
    · rw [← hfire]
      simp only [couplingStep]
      rw [if_neg hc]
      exact iff_of_false (by by_cases hm : k % outv = 0 <;> simp [hm]) hc
  · intro hk
    have h1 : k ≤ settleStep h := Nat.le_of_lt hk
    have h2 : k + 1 ≤ settleStep h := hk
    rw [chassis_before integ orc h outv bX bZ hpos k h1,
      chassis_before integ orc h outv bX bZ hpos (k + 1) h2]
  · intro hk
    have hc : (loopState integ orc h outv bX bZ k).chassisFixedFlag = true
        ∧ (1 : ℚ) / 2 ≤ (k : ℚ) * h := hfire.mpr hk
    simp only [loopState, couplingStep]
    rw [if_pos hc]

/-- C3 witness: the transition characterization at the scenario values
`h = 0.005` (settle step 100), evaluated at step `k = 100`. -/
theorem fixed_free_transition_witness :
    0 < (1 / 200 : ℚ) ∧
    ((((1 : ℚ) / 2 ≤ ((100 : ℕ) : ℚ) * (1 / 200)) ↔
        settleStep (1 / 200) ≤ 100) ∧
      (Ev.releaseChassis ∈ (couplingStep idInteg zeroOracle (1 / 200) 4 100
          (loopState idInteg zeroOracle (1 / 200) 4 100 50 100)).2 ↔
        100 = settleStep (1 / 200)) ∧
      (Ev.recomputeOffset ∈ (couplingStep idInteg zeroOracle (1 / 200) 4 100
          (loopState idInteg zeroOracle (1 / 200) 4 100 50 100)).2 ↔
        100 = settleStep (1 / 200)) ∧
      ((loopState idInteg zeroOracle (1 / 200) 4 100 50 100).chassisFixedFlag
        = decide (100 ≤ settleStep (1 / 200))) ∧
      (100 ≤ settleStep (1 / 200) →
        (loopState idInteg zeroOracle (1 / 200) 4 100 50 100).bodies
            BodyId.chassis = initChassis 100) ∧
      (100 < settleStep (1 / 200) →
        (loopState idInteg zeroOracle (1 / 200) 4 100 50 101).bodies
            BodyId.chassis
          = (loopState idInteg zeroOracle (1 / 200) 4 100 50 100).bodies
              BodyId.chassis) ∧
      (settleStep (1 / 200) < 100 →
        ((loopState idInteg zeroOracle (1 / 200) 4 100 50 100).bodies
            BodyId.chassis).fixed = false) ∧
      (100 = settleStep (1 / 200) →
        (loopState idInteg zeroOracle (1 / 200) 4 100 50 101).terrainHeightOffset
          = zeroOracle.maxParticleZ 100 + height_offset_chassis_to_bottom)) :=
  ⟨by norm_num,
    fixed_free_transition idInteg zeroOracle (1 / 200) 4 100 50 100
      (by norm_num)⟩

theorem digitChar_isDigit (d : ℕ) (hd : d < 10) :
    (Nat.digitChar d).isDigit = true := by
  interval_cases d <;> decide

theorem digitVal_digitChar (d : ℕ) (hd : d < 10) :
    digitVal (Nat.digitChar d) = d := by
  interval_cases d <;> decide

theorem natChars_digits (fuel : ℕ) :
    ∀ n, n ≤ fuel → ∀ c ∈ natChars fuel n, c.isDigit = true := by
  induction fuel with
  | zero => simp [natChars]
  | succ fuel ih =>
    intro n hn c hc
    rw [natChars] at hc
    by_cases h0 : n = 0
    · simp [h0] at hc
    · rw [if_neg h0] at hc
      rcases List.mem_append.mp hc with hl | hr
      · have hdiv : n / 10 ≤ fuel := by
          have := Nat.div_lt_self (Nat.pos_of_ne_zero h0)
            (by norm_num : 1 < 10)
          omega
        exact ih (n / 10) hdiv c hl
      · simp only [List.mem_singleton] at hr
        subst hr
        exact digitChar_isDigit (n % 10) (Nat.mod_lt _ (by norm_num))

theorem valBE_append_digit (l : List Char) (c : Char) :
    valBE (l ++ [c]) = 10 * valBE l + digitVal c := by
  induction l with
  | nil => simp [valBE]
  | cons d ds ih =>
    rw [List.cons_append, valBE, ih, List.length_append,
      List.length_singleton, valBE]
    ring

theorem valBE_natChars (fuel : ℕ) :
    ∀ n, n ≤ fuel → valBE (natChars fuel n) = n := by
  induction fuel with
  | zero =>
    intro n hn
    interval_cases n
    simp [natChars, valBE]
  | succ fuel ih =>
    intro n hn
    rw [natChars]
    by_cases h0 : n = 0
    · simp [h0, valBE]
    · have hdiv : n / 10 ≤ fuel := by
        have := Nat.div_lt_self (Nat.pos_of_ne_zero h0)
          (by norm_num : 1 < 10)
        omega
      rw [if_neg h0, valBE_append_digit, ih (n / 10) hdiv,
        digitVal_digitChar (n % 10) (Nat.mod_lt _ (by norm_num))]
      omega

theorem natChars_length_le (fuel : ℕ) :
    ∀ n p, n ≤ fuel → n < 10 ^ p → (natChars fuel n).length ≤ p := by
  induction fuel with
  | zero => simp [natChars]
  | succ fuel ih =>
    intro n p hn hp
    rw [natChars]
    by_cases h0 : n = 0
    · simp [h0]
    · rw [if_neg h0]
      have hp0 : p ≠ 0 := by
        intro hz
        rw [hz, pow_zero] at hp
        omega
      have hdiv : n / 10 ≤ fuel := by
        have := Nat.div_lt_self (Nat.pos_of_ne_zero h0)
          (by norm_num : 1 < 10)
        omega
      have hdivp : n / 10 < 10 ^ (p - 1) := by
        rw [Nat.div_lt_iff_lt_mul (by norm_num : 0 < 10)]
        calc n < 10 ^ p := hp
          _ = 10 ^ (p - 1) * 10 := by
              rw [← pow_succ]
              congr 1
              omega
      have := ih (n / 10) (p - 1) hdiv hdivp
      rw [List.length_append, List.length_singleton]
      omega

theorem printNat_digits (n : ℕ) : ∀ c ∈ printNat n, c.isDigit = true := by
  rw [printNat]
  by_cases h0 : n = 0
  · simp [h0]
  · rw [if_neg h0]
    exact natChars_digits n n le_rfl

theorem printNat_ne_nil (n : ℕ) : printNat n ≠ [] := by
  rw [printNat]
  by_cases h0 : n = 0
  · simp [h0]
  · rw [if_neg h0]
    obtain ⟨m, rfl⟩ : ∃ m, n = m + 1 := ⟨n - 1, by omega⟩
    rw [natChars, if_neg h0]
    simp

theorem valBE_printNat (n : ℕ) : valBE (printNat n) = n := by
  rw [printNat]
  by_cases h0 : n = 0
  · simp [h0, valBE, digitVal]
  · rw [if_neg h0]
    exact valBE_natChars n n le_rfl

theorem printNat_length_le (n p : ℕ) (hp : 1 ≤ p) (hn : n < 10 ^ p) :
    (printNat n).length ≤ p := by
  rw [printNat]
  by_cases h0 : n = 0
  · simpa [h0] using hp
  · rw [if_neg h0]
    exact natChars_length_le n n p le_rfl hn

theorem valBE_replicate_zero (m : ℕ) (l : List Char) :
    valBE (List.replicate m '0' ++ l) = valBE l := by
  induction m with
  | zero => simp
  | succ m ih =>
    rw [List.replicate_succ, List.cons_append, valBE, ih,
      (by decide : digitVal '0' = 0)]
    simp

theorem padZeros_digits (p : ℕ) (l : List Char)
    (hl : ∀ c ∈ l, c.isDigit = true) :
    ∀ c ∈ padZeros p l, c.isDigit = true := by
  intro c hc
  rcases List.mem_append.mp hc with hz | hm
  · rw [List.eq_of_mem_replicate hz]
    decide
  · exact hl c hm

theorem valBE_padZeros (p : ℕ) (l : List Char) :
    valBE (padZeros p l) = valBE l :=
  valBE_replicate_zero _ l

theorem padZeros_length (p : ℕ) (l : List Char) (hl : l.length ≤ p) :
    (padZeros p l).length = p := by
  rw [padZeros, List.length_append, List.length_replicate]
  omega

theorem parseDigitsAux_run (ds : List Char) :
    ∀ acc r, (∀ c ∈ ds, c.isDigit = true) →
      (∀ c ∈ r.take 1, c.isDigit = false) →
      parseDigitsAux acc (ds ++ r) = (acc * 10 ^ ds.length + valBE ds, r) := by
  induction ds with
  | nil =>
    intro acc r _ hr
    cases r with
    | nil => simp [parseDigitsAux, valBE]
    | cons c cs =>
      rw [List.nil_append, parseDigitsAux,
        if_neg (by simp [hr c (by simp)])]
      simp [valBE]
  | cons d ds ih =>
    intro acc r hds hr
    rw [List.cons_append, parseDigitsAux, if_pos (hds d (by simp))]
    rw [ih _ r (fun c hc => hds c (by simp [hc])) hr]
    simp only [valBE, List.length_cons, Prod.mk.injEq, and_true]
    ring

theorem parseFracAux_run (ds : List Char) (hds : ∀ c ∈ ds, c.isDigit = true) :
    parseFracAux ds = (valBE ds, ds.length) := by
  induction ds with
  | nil => simp [parseFracAux, valBE]
  | cons d dsx ih =>
    rw [parseFracAux, if_pos (hds d (by simp)),
      ih (fun c hc => hds c (by simp [hc]))]
    simp [valBE]

theorem stofNonneg_printFixed (p n : ℕ) (hp : 1 ≤ p) :
    stofNonneg (printFixed p n) = (n : ℚ) / 10 ^ p := by
  have hfdig : ∀ c ∈ padZeros p (printNat (n % 10 ^ p)), c.isDigit = true :=
    padZeros_digits p _ (printNat_digits _)
  have hflen : (padZeros p (printNat (n % 10 ^ p))).length = p :=
    padZeros_length p _ (printNat_length_le _ p hp
      (Nat.mod_lt _ (by positivity)))
  rw [printFixed, stofNonneg]
  rw [parseDigitsAux_run _ 0 _ (printNat_digits _) (by simp)]
  simp only [zero_mul, zero_add, valBE_printNat]
  rw [if_pos trivial]
  rw [parseFracAux_run _ hfdig]
  simp only [valBE_padZeros, valBE_printNat, hflen]
  have hne : ((10 : ℚ) ^ p) ≠ 0 := by positivity
  field_simp
  exact_mod_cast Nat.div_add_mod' n (10 ^ p)

theorem printFixed_cons (p n : ℕ) :
    ∃ c cs, printFixed p n = c :: cs ∧ c.isDigit = true := by
  rcases hh : printNat (n / 10 ^ p) with _ | ⟨c, cs⟩
  · exact absurd hh (printNat_ne_nil _)
  · refine ⟨c, cs ++ '.' :: padZeros p (printNat (n % 10 ^ p)), ?_, ?_⟩
    · rw [printFixed, hh, List.cons_append]
    · exact printNat_digits _ c (by rw [hh]; simp)

theorem stof_printDec (p : ℕ) (v : ℚ) (hp : 1 ≤ p) :
    stof (printDec p v) = roundDec p v := by
  rw [printDec, roundDec]
  by_cases hm : round (v * 10 ^ p) < 0
  · rw [if_pos hm, stof, if_pos rfl, stofNonneg_printFixed p _ hp]
    rw [Int.cast_natAbs, abs_of_nonpos (by exact_mod_cast le_of_lt hm)]
    push_cast
    ring
  · rw [if_neg hm]
    obtain ⟨c, cs, heq, hdig⟩ := printFixed_cons p (round (v * 10 ^ p)).natAbs
    have hcne : ¬(c = '-') := by
      intro he
      rw [he] at hdig
      exact absurd hdig (by decide)
    rw [heq, stof, if_neg hcne, ← heq, stofNonneg_printFixed p _ hp]
    rw [Int.cast_natAbs, abs_of_nonneg (by exact_mod_cast not_lt.mp hm)]

theorem printFixed_no_comma (p n : ℕ) : ∀ c ∈ printFixed p n, ¬(c = ',') := by
  intro c hc
  rw [printFixed] at hc
  rcases List.mem_append.mp hc with h1 | h2
  · intro he
    have hd := printNat_digits _ c h1
    rw [he] at hd
    exact absurd hd (by decide)
  · rcases List.mem_cons.mp h2 with rfl | h3
    · decide
    · intro he
      have hd := padZeros_digits p _ (printNat_digits _) c h3
      rw [he] at hd
      exact absurd hd (by decide)

theorem printDec_no_comma (p : ℕ) (v : ℚ) : ∀ c ∈ printDec p v, ¬(c = ',') := by
  intro c hc
  rw [printDec] at hc
  by_cases hm : round (v * 10 ^ p) < 0
  · rw [if_pos hm] at hc
    rcases List.mem_cons.mp hc with rfl | h2
    · decide
    · exact printFixed_no_comma p _ c h2
  · rw [if_neg hm] at hc
    exact printFixed_no_comma p _ c hc

theorem findIdx_no_comma (l : List Char) (hl : ∀ c ∈ l, ¬(c = ',')) :
    l.findIdx? (fun c => c = ',') = none :=
  List.findIdx?_eq_none_iff.mpr (fun c hc => decide_eq_false (hl c hc))

theorem findIdx_comma_append (l1 l2 : List Char)
    (h1 : ∀ c ∈ l1, ¬(c = ',')) :
    (l1 ++ ',' :: l2).findIdx? (fun c => c = ',') = some l1.length := by
  rw [List.findIdx?_append, findIdx_no_comma l1 h1, List.findIdx?_cons]
  simp

theorem parseCoord_append (tok rest : List Char)
    (htok : ∀ c ∈ tok, ¬(c = ',')) :
    parseCoord (tok ++ ',' :: rest) = (stof tok, rest) := by
  unfold parseCoord
  rw [findIdx_comma_append tok rest htok]
  have hdrop : (tok ++ ',' :: rest).drop (tok.length + 1) = rest := by
    rw [show tok ++ ',' :: rest = (tok ++ [',']) ++ rest by simp,
      show tok.length + 1 = (tok ++ [',']).length by simp,
      List.drop_left]
  dsimp only
  rw [List.take_left, hdrop]

theorem parseCoord_last (tok : List Char) (htok : ∀ c ∈ tok, ¬(c = ',')) :
    parseCoord tok = (stof tok, tok) := by
  unfold parseCoord
  rw [findIdx_no_comma tok htok]

theorem parseLine_saveLine (p : ℕ) (v : Vec3) (hp : 1 ≤ p) :
    parseLine (saveLine p v) = roundDecVec p v := by
  simp only [parseLine, saveLine]
  have hassoc : printDec p v.x ++ ',' :: printDec p v.y ++ ',' :: printDec p v.z
      = printDec p v.x ++ (',' :: (printDec p v.y ++ (',' :: printDec p v.z))) := by
    simp
  rw [hassoc, parseCoord_append (printDec p v.x)
    (printDec p v.y ++ (',' :: printDec p v.z)) (printDec_no_comma p v.x)]
  dsimp only
  rw [parseCoord_append (printDec p v.y) (printDec p v.z)
    (printDec_no_comma p v.y)]
  dsimp only
  rw [parseCoord_last (printDec p v.z) (printDec_no_comma p v.z)]
  dsimp only
  rw [roundDecVec, stof_printDec p _ hp, stof_printDec p _ hp,
    stof_printDec p _ hp]

/-- C6: checkpoint round-trip — writing any non-empty ordered list of 3D
points in the checkpoint format (one discarded header line, then one
comma-delimited `x,y,z` line per point, each coordinate printed as a
fixed-point decimal with `p ≥ 1` fractional digits) and loading the file
with `loadCheckpointFile` reproduces the original list, in order, to the
file format's decimal precision; in particular, points whose coordinates
are exactly representable at that precision — including a single point and
points with negative coordinates — are reproduced exactly. -/
theorem checkpoint_roundtrip (p : ℕ) (pts : List Vec3) (hp : 1 ≤ p)
    (hne : pts ≠ []) :
    loadCheckpointFile (saveCheckpoint p pts) = pts.map (roundDecVec p) ∧
    ((∀ v ∈ pts, roundDecVec p v = v) →
      loadCheckpointFile (saveCheckpoint p pts) = pts) := by
  have hmap : loadCheckpointFile (saveCheckpoint p pts)
      = pts.map (roundDecVec p) := by
    rw [saveCheckpoint, loadCheckpointFile, List.map_map]
    exact List.map_congr_left (fun v _ => parseLine_saveLine p v hp)
  refine ⟨hmap, fun hid => ?_⟩
  rw [hmap]
  calc pts.map (roundDecVec p) = pts.map id :=
        List.map_congr_left (fun v hv => hid v hv)
    _ = pts := List.map_id pts

/-- C6 witness: the round trip at precision 1 of the singleton list holding
the point `(-2, 3, 5)` — one point, with a negative coordinate. -/
theorem checkpoint_roundtrip_witness :
    1 ≤ 1 ∧ ([⟨-2, 3, 5⟩] : List Vec3) ≠ [] ∧
    (loadCheckpointFile (saveCheckpoint 1 [⟨-2, 3, 5⟩])
        = ([⟨-2, 3, 5⟩] : List Vec3).map (roundDecVec 1) ∧
      ((∀ v ∈ ([⟨-2, 3, 5⟩] : List Vec3), roundDecVec 1 v = v) →
        loadCheckpointFile (saveCheckpoint 1 [⟨-2, 3, 5⟩])
          = ([⟨-2, 3, 5⟩] : List Vec3))) :=
  ⟨le_rfl, by simp,
    checkpoint_roundtrip 1 [⟨-2, 3, 5⟩] le_rfl (by simp)⟩

/-- C7: when a TESTING run's checkpoint file cannot be opened, `main`
reports the checkpoint-read error and terminates with the non-zero status 1
immediately after the failed open: no loop step runs, no output file and no
final checkpoint is written, no output directory is even created, and the
single open attempt is never retried (no partial-load fallback). -/
theorem testing_checkpoint_error_aborts (frameAt : ℕ → Bool) (nsteps : ℕ) :
    mainTrace RunMode.testing false frameAt nsteps
      = [MainEv.parseConfig, MainEv.constructSolvers, MainEv.openCheckpoint,
         MainEv.reportCheckpointError, MainEv.exitProcess 1] ∧
    (∀ k, MainEv.runStep k ∉ mainTrace RunMode.testing false frameAt nsteps) ∧
    MainEv.writeOutputFile ∉ mainTrace RunMode.testing false frameAt nsteps ∧
    MainEv.writeCheckpoint ∉ mainTrace RunMode.testing false frameAt nsteps ∧
    MainEv.createOutputDirs ∉ mainTrace RunMode.testing false frameAt nsteps ∧
    (mainTrace RunMode.testing false frameAt nsteps).count
        MainEv.openCheckpoint = 1 := by
  refine ⟨rfl, ?_, ?_, ?_, ?_, ?_⟩
  · intro k
    simp [mainTrace]
  · simp [mainTrace]
  · simp [mainTrace]
  · simp [mainTrace]
  · rfl

/-- C10 witness: at `h = 1/25` (so `out_fps·h = 2 > 1`) the interval
truncates to 0 and the cadence check is undefined at step 3. -/
theorem out_steps_trunc_guard_witness :
    0 < (1 / 25 : ℚ) ∧
    (outSteps (1 / 25) = (⌊1 / ((out_fps : ℚ) * (1 / 25))⌋).toNat ∧
      (1 < (out_fps : ℚ) * (1 / 25) → outSteps (1 / 25) = 0) ∧
      ((frameCheck (1 / 25) 3).isSome ↔ (out_fps : ℚ) * (1 / 25) ≤ 1)) :=
  ⟨by norm_num, out_steps_trunc_guard (1 / 25) 3 (by norm_num)⟩

end Rovertest
